import Mathlib

/-!
Shallow embedding of the resume analyzer's scoring and suggestion engine
(`app.py`).  Text is modelled as `List Char`; Python's `str.lower` becomes a
character map, the `in` substring test becomes `List.IsInfix` on the lowered
text, and `round(x, 1)` becomes round-half-to-even at one decimal over `ℚ`
(all values arising here are exactly representable as binary doubles, on
which Python's `round` performs decimal round-half-to-even).
-/

/-- `text.lower()` -/
def lowerText (t : List Char) : List Char := t.map Char.toLower

/-- The `KNOWN_SKILLS` module constant. -/
def KNOWN_SKILLS : List (List Char) :=
  [ "python".data, "java".data, "c".data, "c++".data,
    "html".data, "css".data, "javascript".data, "react".data,
    "node".data, "node.js".data, "flask".data, "django".data,
    "sql".data, "mysql".data, "postgres".data, "mongodb".data,
    "machine learning".data, "ml".data, "deep learning".data,
    "data analysis".data, "data analytics".data,
    "pandas".data, "numpy".data, "scikit-learn".data,
    "git".data, "github".data,
    "aws".data, "azure".data, "gcp".data, "cloud".data,
    "docker".data, "kubernetes".data ]

/-- The `REQUIRED_SKILLS` module constant. -/
def REQUIRED_SKILLS : List (List Char) :=
  [ "python".data, "html".data, "css".data, "javascript".data,
    "sql".data, "git".data, "github".data, "machine learning".data ]

/-- `extract_skills`: every known skill occurring as a substring of the
lower-cased text, returned as a sorted list (`sorted(list(found))`). -/
def extract_skills (text : List Char) : List (List Char) :=
  List.insertionSort (· ≤ ·)
    (KNOWN_SKILLS.filter (fun s => decide (s <:+: lowerText text)))

/-- The keyword list local to `has_projects`. -/
def project_keywords : List (List Char) :=
  [ "project".data, "projects".data,
    "built".data, "created".data, "developed".data, "designed".data,
    "implemented".data, "engineered".data, "deployed".data,
    "application".data, "app".data, "system".data, "model".data ]

/-- `has_projects` -/
def has_projects (text : List Char) : Bool :=
  project_keywords.any (fun w => decide (w <:+: lowerText text))

/-- The `bullet_chars` list (used in `formatting_score` and
`generate_suggestions`). -/
def bullet_chars : List Char := ['•', '-', '*']

/-- `any(char in text for char in bullet_chars)` -/
def has_bullets (text : List Char) : Bool :=
  bullet_chars.any (fun c => decide (c ∈ text))

/-- The `sections` list local to `formatting_score`. -/
def sections : List (List Char) :=
  [ "education".data, "experience".data, "skills".data,
    "projects".data, "achievements".data ]

/-- `section_score = sum(1 for sec in sections if sec in text.lower())` -/
def section_score (text : List Char) : ℕ :=
  sections.countP (fun s => decide (s <:+: lowerText text))

/-- `formatting_score` -/
def formatting_score (text : List Char) : ℕ :=
  let base := if has_bullets text then 8 else 0
  let bonus :=
    if 3 ≤ section_score text then 12
    else if section_score text = 2 then 8
    else if section_score text = 1 then 4
    else 2
  min (base + bonus) 20

/-- Round-half-to-even to an integer (the rounding Python's `round` applies
to an exactly representable value). -/
def rhe (q : ℚ) : ℤ :=
  if q - ⌊q⌋ < 1 / 2 then ⌊q⌋
  else if 1 / 2 < q - ⌊q⌋ then ⌊q⌋ + 1
  else if ⌊q⌋ % 2 = 0 then ⌊q⌋ else ⌊q⌋ + 1

/-- Python's `round(q, 1)`. -/
def round1 (q : ℚ) : ℚ := (rhe (q * 10) : ℚ) / 10

/-- `len(text.split())`: whitespace-delimited word count. -/
def word_count (text : List Char) : ℕ :=
  ((text.splitOnP Char.isWhitespace).filter (fun w => decide (w ≠ []))).length

/-- The skill-match part of `calculate_score` (lines 110-115), parametric in
the required vocabulary to expose the `if REQUIRED_SKILLS:` guard. -/
def skill_score_calc (required extracted : List (List Char)) : ℚ :=
  let matchCount : ℕ := required.countP (fun s => decide (s ∈ extracted))
  if required ≠ [] then ((matchCount : ℚ) / (required.length : ℚ)) * 50 else 0

/-- `calculate_score`: returns
`(total_score, round(skill_score, 1), project_score, format_score)`. -/
def calculate_score (extracted : List (List Char)) (text : List Char) :
    ℚ × ℚ × ℚ × ℚ :=
  let skill_score := skill_score_calc REQUIRED_SKILLS extracted
  let project_score : ℚ := if has_projects text then 30 else 10
  let format_score : ℚ := (formatting_score text : ℚ)
  (round1 (skill_score + project_score + format_score),
   round1 skill_score, project_score, format_score)

/-- `", ".join` -/
def joinComma : List (List Char) → List Char
  | [] => []
  | [w] => w
  | w :: ws => w ++ ", ".data ++ joinComma ws

/-- The missing-skills suggestion string (prefix plus comma-joined list). -/
def msgMissing (missing : List (List Char)) : List Char :=
  "Try to add or highlight these important skills if you know them: ".data
    ++ joinComma missing

/-- The no-projects suggestion string. -/
def msgProjects : List Char :=
  "Add a \x27Projects\x27 section with 2–3 good projects. Mention what you built, tools/technologies used, and your role.".data

/-- The too-short suggestion string. -/
def msgShort : List Char :=
  "Your resume looks quite short. Add more details about your skills, projects, and achievements.".data

/-- The too-long suggestion string. -/
def msgLong : List Char :=
  "Your resume seems long. For a fresher, try to keep it to 1 page with the most important points.".data

/-- The no-skills-detected suggestion string. -/
def msgNoSkills : List Char :=
  "I could not find a clear \x27Skills\x27 section. Add one and list your tools, languages, and frameworks.".data

/-- The no-bullets suggestion string. -/
def msgBullets : List Char :=
  "Use bullet points to list skills, projects, and experience instead of big paragraphs. This makes the resume easier to read.".data

/-- The fallback "looks good" suggestion string. -/
def msgGood : List Char :=
  "Your resume looks good! You can still refine wording and customize it for each job description.".data

/-- `missing_skills = [s for s in REQUIRED_SKILLS if s not in extracted_skills]` -/
def missing_of (extracted : List (List Char)) : List (List Char) :=
  REQUIRED_SKILLS.filter (fun s => decide (s ∉ extracted))

/-- `generate_suggestions`: returns `(suggestions, missing_skills)`,
accumulating the suggestion strings exactly in the source's order. -/
def generate_suggestions (text : List Char) (extracted : List (List Char)) :
    List (List Char) × List (List Char) :=
  let suggestions : List (List Char) := []
  let missing := missing_of extracted
  let suggestions :=
    if missing ≠ [] then suggestions ++ [msgMissing missing] else suggestions
  let suggestions :=
    if has_projects text then suggestions else suggestions ++ [msgProjects]
  let wc := word_count text
  let suggestions :=
    if wc < 150 then suggestions ++ [msgShort] else suggestions
  let suggestions :=
    if 700 < wc then suggestions ++ [msgLong] else suggestions
  let suggestions :=
    if extracted.length = 0 then suggestions ++ [msgNoSkills] else suggestions
  let suggestions :=
    if has_bullets text then suggestions else suggestions ++ [msgBullets]
  let suggestions :=
    if suggestions = [] then suggestions ++ [msgGood] else suggestions
  (suggestions, missing)

/-! ### Helper lemmas about round-half-to-even -/

theorem rhe_intCast (n : ℤ) : rhe ((n : ℚ)) = n := by
  unfold rhe
  rw [Int.floor_intCast]
  norm_num

theorem floor_le_rhe (q : ℚ) : ⌊q⌋ ≤ rhe q := by
  unfold rhe
  split_ifs <;> omega

theorem rhe_le_floor_add_one (q : ℚ) : rhe q ≤ ⌊q⌋ + 1 := by
  unfold rhe
  split_ifs <;> omega

theorem le_rhe {n : ℤ} {q : ℚ} (h : (n : ℚ) ≤ q) : n ≤ rhe q :=
  le_trans (Int.le_floor.mpr h) (floor_le_rhe q)

theorem rhe_le {n : ℤ} {q : ℚ} (h : q ≤ (n : ℚ)) : rhe q ≤ n := by
  have hf : ⌊q⌋ ≤ n := by
    have := Int.floor_le_floor h
    simpa using this
  rcases eq_or_lt_of_le hf with heq | hlt
  · have hq : q = (n : ℚ) := by
      refine le_antisymm h ?_
      rw [← heq]
      exact Int.floor_le q
    rw [hq, rhe_intCast]
  · have := rhe_le_floor_add_one q
    omega

theorem rhe_add_even (q : ℚ) (k : ℤ) (hk : k % 2 = 0) :
    rhe (q + (k : ℚ)) = rhe q + k := by
  unfold rhe
  rw [Int.floor_add_int]
  have h1 : q + (k : ℚ) - ((⌊q⌋ + k : ℤ) : ℚ) = q - ((⌊q⌋ : ℤ) : ℚ) := by
    push_cast
    ring
  rw [h1]
  have h2 : (⌊q⌋ + k) % 2 = ⌊q⌋ % 2 := by omega
  rw [h2]
  split_ifs <;> omega

theorem round1_add_int (q : ℚ) (k : ℤ) :
    round1 (q + (k : ℚ)) = round1 q + (k : ℚ) := by
  unfold round1
  have h : (q + (k : ℚ)) * 10 = q * 10 + ((10 * k : ℤ) : ℚ) := by
    push_cast
    ring
  rw [h, rhe_add_even _ (10 * k) (by omega)]
  push_cast
  ring

theorem round1_round1 (q : ℚ) : round1 (round1 q) = round1 q := by
  unfold round1
  have h : ((rhe (q * 10) : ℚ) / 10) * 10 = ((rhe (q * 10) : ℤ) : ℚ) := by
    ring
  rw [h, rhe_intCast]

theorem le_round1 {n : ℤ} {q : ℚ} (h : (n : ℚ) ≤ q) : (n : ℚ) ≤ round1 q := by
  unfold round1
  rw [le_div_iff₀ (by norm_num : (0 : ℚ) < 10)]
  have h1 : ((10 * n : ℤ) : ℚ) ≤ q * 10 := by
    push_cast
    linarith
  have h2 := le_rhe h1
  calc (n : ℚ) * 10 = ((10 * n : ℤ) : ℚ) := by push_cast; ring
    _ ≤ (rhe (q * 10) : ℚ) := by exact_mod_cast h2

theorem round1_le {n : ℤ} {q : ℚ} (h : q ≤ (n : ℚ)) : round1 q ≤ (n : ℚ) := by
  unfold round1
  rw [div_le_iff₀ (by norm_num : (0 : ℚ) < 10)]
  have h1 : q * 10 ≤ ((10 * n : ℤ) : ℚ) := by
    push_cast
    linarith
  have h2 := rhe_le h1
  calc (rhe (q * 10) : ℚ) ≤ ((10 * n : ℤ) : ℚ) := by exact_mod_cast h2
    _ = (n : ℚ) * 10 := by push_cast; ring

/-! ### Helper lemmas about the sub-scores -/

theorem skill_score_nonneg (required ex : List (List Char)) :
    0 ≤ skill_score_calc required ex := by
  unfold skill_score_calc
  split_ifs
  · positivity
  · simp

theorem skill_score_le_50 (required ex : List (List Char)) :
    skill_score_calc required ex ≤ 50 := by
  unfold skill_score_calc
  split_ifs with h
  · have hm : required.countP (fun s => decide (s ∈ ex)) ≤ required.length :=
      List.countP_le_length _
    have hl0 : required.length ≠ 0 := by
      simpa [List.length_eq_zero] using h
    have hl : 0 < (required.length : ℚ) := by
      exact_mod_cast Nat.pos_of_ne_zero hl0
    have hm' : ((required.countP (fun s => decide (s ∈ ex))) : ℚ) ≤
        (required.length : ℚ) := by exact_mod_cast hm
    rw [div_mul_eq_mul_div, div_le_iff₀ hl]
    nlinarith
  · norm_num

theorem formatting_score_le (t : List Char) : formatting_score t ≤ 20 := by
  unfold formatting_score
  exact min_le_right _ _

theorem two_le_formatting_score (t : List Char) : 2 ≤ formatting_score t := by
  unfold formatting_score
  split_ifs <;> decide

theorem total_decomp (ex : List (List Char)) (t : List Char) :
    ∃ k : ℤ, 12 ≤ k ∧ k ≤ 50 ∧
      (calculate_score ex t).2.2.1 + (calculate_score ex t).2.2.2 = (k : ℚ) ∧
      (calculate_score ex t).1 =
        round1 (skill_score_calc REQUIRED_SKILLS ex) + (k : ℚ) ∧
      (calculate_score ex t).2.1 = round1 (skill_score_calc REQUIRED_SKILLS ex) := by
  refine ⟨(if has_projects t then 30 else 10) + (formatting_score t : ℤ),
    ?_, ?_, ?_, ?_, rfl⟩
  · have := two_le_formatting_score t
    split_ifs <;> omega
  · have := formatting_score_le t
    split_ifs <;> omega
  · simp only [calculate_score]
    split_ifs <;> push_cast <;> ring
  · simp only [calculate_score]
    have h : skill_score_calc REQUIRED_SKILLS ex +
        (if has_projects t then (30 : ℚ) else 10) + ((formatting_score t : ℕ) : ℚ) =
        skill_score_calc REQUIRED_SKILLS ex +
          (((if has_projects t then 30 else 10) + (formatting_score t : ℤ) : ℤ) : ℚ) := by
      split_ifs <;> push_cast <;> ring
    rw [h, round1_add_int]

/-! ### Helper lemmas about the suggestion generator -/

theorem gen_fst (t : List Char) (ex : List (List Char)) :
    (generate_suggestions t ex).1 =
      (if missing_of ex = [] then [] else [msgMissing (missing_of ex)])
      ++ (if has_projects t then [] else [msgProjects])
      ++ (if word_count t < 150 then [msgShort] else [])
      ++ (if 700 < word_count t then [msgLong] else [])
      ++ (if ex.length = 0 then [msgNoSkills] else [])
      ++ (if has_bullets t then [] else [msgBullets])
      ++ (if missing_of ex = [] ∧ has_projects t = true ∧
            ¬ word_count t < 150 ∧ ¬ 700 < word_count t ∧
            ¬ ex.length = 0 ∧ has_bullets t = true
          then [msgGood] else []) := by
  unfold generate_suggestions
  by_cases h1 : missing_of ex = [] <;>
    by_cases h2 : has_projects t <;>
      by_cases h3 : word_count t < 150 <;>
        by_cases h4 : 700 < word_count t <;>
          by_cases h5 : ex.length = 0 <;>
            by_cases h6 : has_bullets t <;>
              simp [h1, h2, h3, h4, h5, h6]

theorem mem_ite_singleton {c : Prop} [Decidable c] {x m : List Char} :
    (m ∈ if c then [x] else []) ↔ c ∧ m = x := by
  split_ifs with h <;> simp [h]

theorem mem_ite_singleton_not {c : Prop} [Decidable c] {x m : List Char} :
    (m ∈ if c then [] else [x]) ↔ ¬ c ∧ m = x := by
  split_ifs with h <;> simp [h]

theorem mem_gen_fst (t : List Char) (ex : List (List Char)) (m : List Char) :
    m ∈ (generate_suggestions t ex).1 ↔
      (¬ missing_of ex = [] ∧ m = msgMissing (missing_of ex))
      ∨ (¬ has_projects t = true ∧ m = msgProjects)
      ∨ (word_count t < 150 ∧ m = msgShort)
      ∨ (700 < word_count t ∧ m = msgLong)
      ∨ (ex.length = 0 ∧ m = msgNoSkills)
      ∨ (¬ has_bullets t = true ∧ m = msgBullets)
      ∨ ((missing_of ex = [] ∧ has_projects t = true ∧
            ¬ word_count t < 150 ∧ ¬ 700 < word_count t ∧
            ¬ ex.length = 0 ∧ has_bullets t = true) ∧ m = msgGood) := by
  rw [gen_fst]
  simp only [List.mem_append, mem_ite_singleton, mem_ite_singleton_not, or_assoc]

theorem msgMissing_ne {m : List (List Char)} {s : List Char}
    (h : s.take 1 ≠ ['T']) : msgMissing m ≠ s := by
  intro he
  apply h
  rw [← he]
  rfl

theorem mem_short_iff (t : List Char) (ex : List (List Char)) :
    msgShort ∈ (generate_suggestions t ex).1 ↔ word_count t < 150 := by
  rw [mem_gen_fst]
  constructor
  · rintro (⟨_, h⟩ | ⟨_, h⟩ | ⟨hc, _⟩ | ⟨_, h⟩ | ⟨_, h⟩ | ⟨_, h⟩ | ⟨_, h⟩)
    · exact absurd h.symm (msgMissing_ne (by decide))
    · exact absurd h (by decide)
    · exact hc
    · exact absurd h (by decide)
    · exact absurd h (by decide)
    · exact absurd h (by decide)
    · exact absurd h (by decide)
  · intro h
    exact Or.inr (Or.inr (Or.inl ⟨h, rfl⟩))

theorem mem_long_iff (t : List Char) (ex : List (List Char)) :
    msgLong ∈ (generate_suggestions t ex).1 ↔ 700 < word_count t := by
  rw [mem_gen_fst]
  constructor
  · rintro (⟨_, h⟩ | ⟨_, h⟩ | ⟨_, h⟩ | ⟨hc, _⟩ | ⟨_, h⟩ | ⟨_, h⟩ | ⟨_, h⟩)
    · exact absurd h.symm (msgMissing_ne (by decide))
    · exact absurd h (by decide)
    · exact absurd h (by decide)
    · exact hc
    · exact absurd h (by decide)
    · exact absurd h (by decide)
    · exact absurd h (by decide)
  · intro h
    exact Or.inr (Or.inr (Or.inr (Or.inl ⟨h, rfl⟩)))

theorem mem_projects_iff (t : List Char) (ex : List (List Char)) :
    msgProjects ∈ (generate_suggestions t ex).1 ↔ ¬ has_projects t = true := by
  rw [mem_gen_fst]
  constructor
  · rintro (⟨_, h⟩ | ⟨hc, _⟩ | ⟨_, h⟩ | ⟨_, h⟩ | ⟨_, h⟩ | ⟨_, h⟩ | ⟨_, h⟩)
    · exact absurd h.symm (msgMissing_ne (by decide))
    · exact hc
    · exact absurd h (by decide)
    · exact absurd h (by decide)
    · exact absurd h (by decide)
    · exact absurd h (by decide)
    · exact absurd h (by decide)
  · intro h
    exact Or.inr (Or.inl ⟨h, rfl⟩)

theorem mem_bullets_iff (t : List Char) (ex : List (List Char)) :
    msgBullets ∈ (generate_suggestions t ex).1 ↔ ¬ has_bullets t = true := by
  rw [mem_gen_fst]
  constructor
  · rintro (⟨_, h⟩ | ⟨_, h⟩ | ⟨_, h⟩ | ⟨_, h⟩ | ⟨_, h⟩ | ⟨hc, _⟩ | ⟨_, h⟩)
    · exact absurd h.symm (msgMissing_ne (by decide))
    · exact absurd h (by decide)
    · exact absurd h (by decide)
    · exact absurd h (by decide)
    · exact absurd h (by decide)
    · exact hc
    · exact absurd h (by decide)
  · intro h
    exact Or.inr (Or.inr (Or.inr (Or.inr (Or.inr (Or.inl ⟨h, rfl⟩)))))

theorem mem_good_iff (t : List Char) (ex : List (List Char)) :
    msgGood ∈ (generate_suggestions t ex).1 ↔
      (missing_of ex = [] ∧ has_projects t = true ∧
        ¬ word_count t < 150 ∧ ¬ 700 < word_count t ∧
        ¬ ex.length = 0 ∧ has_bullets t = true) := by
  rw [mem_gen_fst]
  constructor
  · rintro (⟨_, h⟩ | ⟨_, h⟩ | ⟨_, h⟩ | ⟨_, h⟩ | ⟨_, h⟩ | ⟨_, h⟩ | ⟨hc, _⟩)
    · exact absurd h.symm (msgMissing_ne (by decide))
    · exact absurd h (by decide)
    · exact absurd h (by decide)
    · exact absurd h (by decide)
    · exact absurd h (by decide)
    · exact absurd h (by decide)
    · exact hc
  · intro h
    exact Or.inr (Or.inr (Or.inr (Or.inr (Or.inr (Or.inr ⟨h, rfl⟩)))))

/-! ### Counting matched skills as an intersection cardinality -/

theorem countP_mem_eq_card_inter (l ex : List (List Char)) (h : l.Nodup) :
    l.countP (fun s => decide (s ∈ ex)) = (l.toFinset ∩ ex.toFinset).card := by
  have hnd : (l.filter (fun s => decide (s ∈ ex))).Nodup := h.filter _
  have hfe : (l.filter (fun s => decide (s ∈ ex))).toFinset =
      l.toFinset ∩ ex.toFinset := by
    ext x
    simp [List.mem_filter]
  rw [List.countP_eq_length_filter, ← hfe, List.card_toFinset, hnd.dedup]


/-! ### Claim theorems -/

/-- Claim C1: for every extracted-skills list and text, the total returned by
`calculate_score` equals `round1` of the sum of the three sub-scores it
returns alongside it, and `0 ≤ total ≤ 100`. -/
theorem claim_c1_total_composition (ex : List (List Char)) (t : List Char) :
    (calculate_score ex t).1 =
      round1 ((calculate_score ex t).2.1 + (calculate_score ex t).2.2.1 +
        (calculate_score ex t).2.2.2)
  ∧ 0 ≤ (calculate_score ex t).1 ∧ (calculate_score ex t).1 ≤ 100 := by
  obtain ⟨k, hk12, hk50, hsum, htot, hskill⟩ := total_decomp ex t
  have hs0 : (0 : ℚ) ≤ round1 (skill_score_calc REQUIRED_SKILLS ex) := by
    have h := le_round1 (n := 0)
      (by simpa using skill_score_nonneg REQUIRED_SKILLS ex)
    simpa using h
  have hs50 : round1 (skill_score_calc REQUIRED_SKILLS ex) ≤ 50 := by
    have h := round1_le (n := 50)
      (by simpa using skill_score_le_50 REQUIRED_SKILLS ex)
    simpa using h
  have hk12' : (12 : ℚ) ≤ (k : ℚ) := by exact_mod_cast hk12
  have hk50' : (k : ℚ) ≤ 50 := by exact_mod_cast hk50
  refine ⟨?_, ?_, ?_⟩
  · rw [hskill, add_assoc, hsum, round1_add_int, round1_round1, htot]
  · rw [htot]
    linarith
  · rw [htot]
    linarith

/-- Claim C2: `extract_skills` returns a lexicographically sorted list that is
a subset of `KNOWN_SKILLS`; a known skill is a member exactly when it occurs
as a substring of the lower-cased text (so a text containing "javascript"
yields "java"); the empty text yields the empty list. -/
theorem claim_c2_extract_skills (t : List Char) :
    List.Sorted (· ≤ ·) (extract_skills t)
  ∧ (∀ s, s ∈ extract_skills t → s ∈ KNOWN_SKILLS)
  ∧ (∀ s, s ∈ extract_skills t ↔ s ∈ KNOWN_SKILLS ∧ s <:+: lowerText t)
  ∧ ("javascript".data <:+: lowerText t → "java".data ∈ extract_skills t)
  ∧ extract_skills [] = [] := by
  have hmem : ∀ s, s ∈ extract_skills t ↔
      s ∈ KNOWN_SKILLS ∧ s <:+: lowerText t := by
    intro s
    unfold extract_skills
    rw [(List.perm_insertionSort _ _).mem_iff]
    simp [List.mem_filter]
  refine ⟨List.sorted_insertionSort _ _, fun s hs => ((hmem s).1 hs).1, hmem,
    ?_, by decide⟩
  intro hjs
  exact (hmem _).2 ⟨by decide, List.IsInfix.trans (by decide) hjs⟩

/-- Witness for claim C2 at a concrete text containing "javascript". -/
theorem claim_c2_witness :
    "java".data ∈ extract_skills ("I know JavaScript".data) :=
  (claim_c2_extract_skills _).2.2.2.1 (by decide)

/-- Claim C3: the suggestions come out in the fixed priority order
(missing skills, no projects, too short, too long, no skills, no bullets,
fallback), and the fallback appears iff none of the other six triggered. -/
theorem claim_c3_suggestion_order (t : List Char) (ex : List (List Char)) :
    (generate_suggestions t ex).1 =
      (if missing_of ex = [] then [] else [msgMissing (missing_of ex)])
      ++ (if has_projects t then [] else [msgProjects])
      ++ (if word_count t < 150 then [msgShort] else [])
      ++ (if 700 < word_count t then [msgLong] else [])
      ++ (if ex.length = 0 then [msgNoSkills] else [])
      ++ (if has_bullets t then [] else [msgBullets])
      ++ (if missing_of ex = [] ∧ has_projects t = true ∧
            ¬ word_count t < 150 ∧ ¬ 700 < word_count t ∧
            ¬ ex.length = 0 ∧ has_bullets t = true
          then [msgGood] else [])
  ∧ (msgGood ∈ (generate_suggestions t ex).1 ↔
      (missing_of ex = [] ∧ has_projects t = true ∧
        ¬ word_count t < 150 ∧ ¬ 700 < word_count t ∧
        ¬ ex.length = 0 ∧ has_bullets t = true)) :=
  ⟨gen_fst t ex, mem_good_iff t ex⟩

/-- Claim C4: the returned missing-skills list is the required vocabulary
minus the extracted skills, in vocabulary order, independent of the text. -/
theorem claim_c4_missing_skills (t : List Char) (ex : List (List Char)) :
    ((generate_suggestions t ex).2).Sublist REQUIRED_SKILLS
  ∧ (∀ s, s ∈ (generate_suggestions t ex).2 ↔ s ∈ REQUIRED_SKILLS ∧ s ∉ ex)
  ∧ (∀ t', (generate_suggestions t ex).2 = (generate_suggestions t' ex).2) := by
  have h2 : (generate_suggestions t ex).2 = missing_of ex := rfl
  refine ⟨?_, ?_, fun t' => rfl⟩
  · rw [h2]
    exact List.filter_sublist _
  · intro s
    rw [h2]
    unfold missing_of
    simp [List.mem_filter]

/-- Claim C5: the format score is the bullet base (8 or 0) plus the section
bonus (12/8/4/2), always lies in {2,4,8,10,12,16,20}, and the clamp at 20
never changes the value. -/
theorem claim_c5_formatting (t : List Char) :
    formatting_score t =
      (if has_bullets t then 8 else 0) +
      (if 3 ≤ section_score t then 12 else if section_score t = 2 then 8
        else if section_score t = 1 then 4 else 2)
  ∧ formatting_score t ∈ [2, 4, 8, 10, 12, 16, 20]
  ∧ (if has_bullets t then 8 else 0) +
      (if 3 ≤ section_score t then 12 else if section_score t = 2 then 8
        else if section_score t = 1 then 4 else 2) ≤ 20 := by
  refine ⟨?_, ?_, ?_⟩ <;> (try unfold formatting_score) <;> split_ifs <;> decide

/-- Claim C6: the skill sub-score is the share of required skills matched,
scaled to 50 and rounded to one decimal; an empty required vocabulary gives
score 0, and the actual divisor is nonzero. -/
theorem claim_c6_skill_score (required ex : List (List Char)) (t : List Char) :
    (required = [] → skill_score_calc required ex = 0)
  ∧ ((REQUIRED_SKILLS.length : ℚ) ≠ 0)
  ∧ (calculate_score ex t).2.1 =
      round1 ((((REQUIRED_SKILLS.toFinset ∩ ex.toFinset).card : ℚ) /
        (REQUIRED_SKILLS.length : ℚ)) * 50) := by
  refine ⟨?_, by norm_num [REQUIRED_SKILLS], ?_⟩
  · intro h
    unfold skill_score_calc
    simp [h]
  · have hproj : (calculate_score ex t).2.1 =
        round1 (skill_score_calc REQUIRED_SKILLS ex) := rfl
    rw [hproj]
    unfold skill_score_calc
    rw [if_pos (by decide : REQUIRED_SKILLS ≠ [])]
    rw [countP_mem_eq_card_inter _ _ (by decide)]

/-- Witness for claim C6: the empty required vocabulary yields skill score 0. -/
theorem claim_c6_witness : skill_score_calc [] [] = 0 :=
  (claim_c6_skill_score [] [] []).1 rfl

/-- Claim C7: the project sub-score is exactly 30 when `has_projects` holds
and exactly 10 otherwise, and never any other value. -/
theorem claim_c7_project_score (ex : List (List Char)) (t : List Char) :
    ((calculate_score ex t).2.2.1 = if has_projects t then (30 : ℚ) else 10)
  ∧ (has_projects t = true → (calculate_score ex t).2.2.1 = 30)
  ∧ (has_projects t = false → (calculate_score ex t).2.2.1 = 10)
  ∧ ((calculate_score ex t).2.2.1 = 30 ∨ (calculate_score ex t).2.2.1 = 10) := by
  have hbase : (calculate_score ex t).2.2.1 =
      if has_projects t then (30 : ℚ) else 10 := rfl
  refine ⟨hbase, ?_, ?_, ?_⟩
  · intro h
    simp [hbase, h]
  · intro h
    simp [hbase, h]
  · rw [hbase]
    split_ifs <;> simp

/-- Witness for claim C7 at concrete texts with and without project words. -/
theorem claim_c7_witness :
    (calculate_score [] []).2.2.1 = 10 ∧
    (calculate_score [] ("project".data)).2.2.1 = 30 :=
  ⟨(claim_c7_project_score [] []).2.2.1 rfl,
   (claim_c7_project_score [] ("project".data)).2.1 (by decide)⟩

/-- Claim C8: the length thresholds are strict (word count exactly 150 does
not trigger the too-short suggestion, exactly 700 does not trigger the
too-long one), and no text triggers both. -/
theorem claim_c8_length_thresholds (t₁ t₂ : List Char)
    (ex₁ ex₂ : List (List Char))
    (h1 : word_count t₁ = 150) (h2 : word_count t₂ = 700) :
    msgShort ∉ (generate_suggestions t₁ ex₁).1
  ∧ msgLong ∉ (generate_suggestions t₂ ex₂).1
  ∧ ∀ t ex, ¬ (msgShort ∈ (generate_suggestions t ex).1 ∧
      msgLong ∈ (generate_suggestions t ex).1) := by
  refine ⟨?_, ?_, ?_⟩
  · rw [mem_short_iff]
    omega
  · rw [mem_long_iff]
    omega
  · rintro t ex ⟨hs, hl⟩
    rw [mem_short_iff] at hs
    rw [mem_long_iff] at hl
    omega

set_option maxRecDepth 40000 in
/-- Witness for claim C8 at texts of exactly 150 and exactly 700 words. -/
theorem claim_c8_witness :
    word_count (List.flatten (List.replicate 150 ['a', ' '])) = 150
  ∧ word_count (List.flatten (List.replicate 700 ['a', ' '])) = 700
  ∧ msgShort ∉
      (generate_suggestions (List.flatten (List.replicate 150 ['a', ' '])) []).1 :=
  ⟨by decide, by decide,
   (claim_c8_length_thresholds _ (List.flatten (List.replicate 700 ['a', ' ']))
     [] [] (by decide) (by decide)).1⟩

/-- Claim C9: the suggestion generator and the score composer read the same
signals: the no-projects suggestion appears iff the project sub-score is 10,
and the no-bullets suggestion appears iff the bullet base contribution of the
format score is 0. -/
theorem claim_c9_signal_consistency (t : List Char) (ex : List (List Char)) :
    (msgProjects ∈ (generate_suggestions t ex).1 ↔
      (calculate_score ex t).2.2.1 = 10)
  ∧ (msgBullets ∈ (generate_suggestions t ex).1 ↔
      (if has_bullets t then (8 : ℕ) else 0) = 0) := by
  have hbase : (calculate_score ex t).2.2.1 =
      if has_projects t then (30 : ℚ) else 10 := rfl
  constructor
  · rw [mem_projects_iff, hbase]
    by_cases h : has_projects t <;> simp [h]
  · rw [mem_bullets_iff]
    by_cases h : has_bullets t <;> simp [h]

/-- Claim C10: the total score is always at least 12.0, because the project
sub-score is at least 10 and the format sub-score at least 2. -/
theorem claim_c10_total_floor (ex : List (List Char)) (t : List Char) :
    (12 : ℚ) ≤ (calculate_score ex t).1
  ∧ (10 : ℚ) ≤ (calculate_score ex t).2.2.1
  ∧ (2 : ℚ) ≤ (calculate_score ex t).2.2.2 := by
  obtain ⟨k, hk12, _, _, htot, _⟩ := total_decomp ex t
  have hs0 : (0 : ℚ) ≤ round1 (skill_score_calc REQUIRED_SKILLS ex) := by
    have h := le_round1 (n := 0)
      (by simpa using skill_score_nonneg REQUIRED_SKILLS ex)
    simpa using h
  have hk12' : (12 : ℚ) ≤ (k : ℚ) := by exact_mod_cast hk12
  refine ⟨?_, ?_, ?_⟩
  · rw [htot]
    linarith
  · have hbase : (calculate_score ex t).2.2.1 =
        if has_projects t then (30 : ℚ) else 10 := rfl
    rw [hbase]
    split_ifs <;> norm_num
  · have hfmt : (calculate_score ex t).2.2.2 = ((formatting_score t : ℕ) : ℚ) := rfl
    rw [hfmt]
    have h := two_le_formatting_score t
    exact_mod_cast h
